import Mathlib

/-!
Shallow embedding of the `rust-interval-trees` repository
(`src/interval.rs`, `src/avl_tree.rs`, `src/traits.rs`).

The generic element type `T : num::PrimInt` is modelled by `Int`
(the concrete inputs used below stay far away from any fixed-width
bounds, so the embedding agrees with every width of at least 8 bits).
The wrap-around behaviour of a fixed-width `T` is modelled separately
for the overflow claim, by a signed-wrapping successor.

`Option<Box<AVLNode<T>>>` is modelled by the inductive `AVLTree`, whose
`nil` constructor plays the role of `None`.  Every function on
`AVLNode` in the source is translated to a function on `AVLTree`; the
`nil` cases are chosen to match the behaviour of the corresponding
call sites (which guard the call with `if let Some(..)` or `map_or`),
and each such choice is documented next to the definition.
-/

namespace IntervalTrees

/-- `Interval<T>` from `src/interval.rs`: a closed range `[start, stop]`. -/
structure Interval where
  start : Int
  stop : Int
deriving DecidableEq, Repr

/-- `IntervalError` from `src/interval.rs`. -/
inductive IntervalError where
  | MergeOnDisjointIntervals
deriving DecidableEq, Repr

namespace Interval

/-- `Interval::contains_value`. -/
def contains_value (self : Interval) (value : Int) : Bool :=
  decide (self.start ≤ value) && decide (value ≤ self.stop)

/-- `Interval::contains_interval`. -/
def contains_interval (self other : Interval) : Bool :=
  self.contains_value other.start && self.contains_value other.stop

/-- `Interval::overlaps_with`. -/
def overlaps_with (self other : Interval) : Bool :=
  self.contains_value other.start
    || self.contains_value other.stop
    || other.contains_value self.start
    || other.contains_value self.stop

/-- `Interval::left_adjacent_to`: `self.stop + T::one() == other.start`. -/
def left_adjacent_to (self other : Interval) : Bool :=
  self.stop + 1 == other.start

/-- `Interval::right_adjacent_to`: `self.start == other.stop + T::one()`. -/
def right_adjacent_to (self other : Interval) : Bool :=
  self.start == other.stop + 1

/-- `Interval::adjacent_to`. -/
def adjacent_to (self other : Interval) : Bool :=
  self.left_adjacent_to other || self.right_adjacent_to other

/-- `Interval::can_merge_with`. -/
def can_merge_with (self other : Interval) : Bool :=
  self.overlaps_with other || self.adjacent_to other

/-- `Interval::merge_unchecked`: the union `[min(starts), max(stops)]`. -/
def merge_unchecked (self other : Interval) : Interval :=
  { start := min self.start other.start, stop := max self.stop other.stop }

/-- `Interval::merge`: checked merge, `Err(MergeOnDisjointIntervals)` when
the intervals neither overlap nor are adjacent. -/
def merge (self other : Interval) : Except IntervalError Interval :=
  if self.can_merge_with other then
    Except.ok (self.merge_unchecked other)
  else
    Except.error IntervalError.MergeOnDisjointIntervals

/-- `Interval::merge_inplace_unchecked`: mutates `self` to the union.
Modelled as returning the new value of `self`. -/
def merge_inplace_unchecked (self other : Interval) : Interval :=
  { start := min self.start other.start, stop := max self.stop other.stop }

/-- `Interval::merge_inplace`: checked in-place merge.  Modelled as
returning the (possibly updated) receiver together with the optional
error; on error the receiver is returned unchanged, as in the source. -/
def merge_inplace (self other : Interval) : Interval × Option IntervalError :=
  if self.can_merge_with other then
    (self.merge_inplace_unchecked other, none)
  else
    (self, some IntervalError.MergeOnDisjointIntervals)

/-- `Interval::is_left_of`: `self.stop < other.start`. -/
def is_left_of (self other : Interval) : Bool :=
  decide (self.stop < other.start)

/-- `Interval::is_right_of`: `self.start > other.stop`. -/
def is_right_of (self other : Interval) : Bool :=
  decide (self.start > other.stop)

end Interval

/-- `Option<Box<AVLNode<T>>>` from `src/avl_tree.rs`:
`nil` is `None`, `node height interval left right` is
`Some(AVLNode { height, interval, left, right })`. -/
inductive AVLTree where
  | nil : AVLTree
  | node (height : Int) (interval : Interval) (left : AVLTree) (right : AVLTree) : AVLTree
deriving DecidableEq, Repr

/-- `AVLCase` from `src/avl_tree.rs`. -/
inductive AVLCase where
  | LeftLeft
  | LeftRight
  | RightRight
  | RightLeft
  | Balanced
deriving DecidableEq, Repr

namespace AVLTree

/-- `AVLNode::with_value`. -/
def with_value (interval : Interval) : AVLTree :=
  AVLTree.node 1 interval AVLTree.nil AVLTree.nil

/-- The cached `height` field of an optional node:
`opt.map_or(0, |node| node.height)`, as used by
`AVLNode::left_child_height` / `AVLNode::right_child_height`. -/
def cached_height : AVLTree → Int
  | AVLTree.nil => 0
  | AVLTree.node h _ _ _ => h

/-- `AVLNode::balance_score`: `left_child_height() - right_child_height()`.
On `nil` this is the `map_or(0, ..)` of `left_child_balance` /
`right_child_balance`. -/
def balance_score : AVLTree → Int
  | AVLTree.nil => 0
  | AVLTree.node _ _ l r => cached_height l - cached_height r

/-- `AVLNode::recompute_height`. -/
def recompute_height : AVLTree → AVLTree
  | AVLTree.nil => AVLTree.nil
  | AVLTree.node _ iv l r =>
      AVLTree.node (max (cached_height l) (cached_height r) + 1) iv l r

/-- `AVLNode::maybe_drop_children`: drop a child whose cached height is
negative. -/
def maybe_drop_children : AVLTree → AVLTree
  | AVLTree.nil => AVLTree.nil
  | AVLTree.node h iv l r =>
      AVLTree.node h iv
        (if cached_height l < 0 then AVLTree.nil else l)
        (if cached_height r < 0 then AVLTree.nil else r)

/-- `AVLNode::rotate_left`, translated statement by statement:
`y = *self.right.take()`, `self.right = y.left.take()`, then
`y.right.replace(old self)` (which discards `y`'s previous right
subtree `yr`), the two swaps, and the two `recompute_height` calls
(the first of which acts on the local dummy node and is a no-op on the
result).  When the right child is absent the source panics
("AVL Tree broken"); that unreachable case is modelled as the
identity. -/
def rotate_left : AVLTree → AVLTree
  | AVLTree.node h iv l (AVLTree.node _ ivy yl _) =>
      AVLTree.node (max (cached_height AVLTree.nil) h + 1) ivy
        AVLTree.nil (AVLTree.node h iv l yl)
  | t => t

/-- `AVLNode::rotate_right`, translated statement by statement:
`y = *self.left.take()`, `self.left = y.right.take()`,
`y.right.replace(old self)`, the two swaps, and the two
`recompute_height` calls (the first acts on the local dummy node).
The rotated-down node keeps its stale cached height `h`.  When the
left child is absent the source panics; that case is modelled as the
identity. -/
def rotate_right : AVLTree → AVLTree
  | AVLTree.node h iv (AVLTree.node _ ivy yl yr) r =>
      AVLTree.node (max (cached_height yl) h + 1) ivy
        yl (AVLTree.node h iv yr r)
  | t => t

/-- `AVLNode::start_rotating`. -/
def start_rotating (t : AVLTree) : AVLCase → AVLTree
  | AVLCase.LeftLeft => rotate_right t
  | AVLCase.LeftRight => rotate_right (rotate_left t)
  | AVLCase.RightRight => rotate_left t
  | AVLCase.RightLeft => rotate_left (rotate_right t)
  | AVLCase.Balanced => t

/-- `AVLNode::balance_after_insertion`.  The `expect("AVL Broken")`
on a missing heavy child cannot fire (a `nil` child has cached height
0, which cannot make the balance exceed 1 in magnitude); that case is
modelled as `Balanced`. -/
def balance_after_insertion (t : AVLTree) (inserted_interval : Interval) : AVLTree :=
  match t with
  | AVLTree.nil => AVLTree.nil
  | AVLTree.node _ _ l r =>
    let balance := cached_height l - cached_height r
    let case :=
      if balance > 1 then
        match l with
        | AVLTree.node _ livl _ _ =>
            if decide (inserted_interval.stop < livl.start) then
              AVLCase.LeftLeft
            else
              AVLCase.LeftRight
        | AVLTree.nil => AVLCase.Balanced
      else if balance < -1 then
        match r with
        | AVLTree.node _ rivl _ _ =>
            if decide (inserted_interval.stop < rivl.start) then
              AVLCase.RightLeft
            else
              AVLCase.RightRight
        | AVLTree.nil => AVLCase.Balanced
      else
        AVLCase.Balanced
    start_rotating t case

/-- `AVLNode::balance_after_deletion`. -/
def balance_after_deletion (t : AVLTree) : AVLTree :=
  match t with
  | AVLTree.nil => AVLTree.nil
  | AVLTree.node _ _ l r =>
    let balance := balance_score t
    let case :=
      if balance > 1 then
        if balance_score l ≥ 0 then AVLCase.LeftLeft else AVLCase.LeftRight
      else if balance < -1 then
        if balance_score r ≤ 0 then AVLCase.RightRight else AVLCase.RightLeft
      else
        AVLCase.Balanced
    start_rotating t case

/-- The statement sequence `self.maybe_drop_children();
self.recompute_height(); self.balance_after_deletion();` that appears
verbatim at several places in the source. -/
def drop_recompute_balance (t : AVLTree) : AVLTree :=
  balance_after_deletion (recompute_height (maybe_drop_children t))

/-- The tail of `AVLNode::delete`:
`if self.height > 0 { maybe_drop_children; recompute_height;
balance_after_deletion }`. -/
def after_delete (t : AVLTree) : AVLTree :=
  if cached_height t > 0 then drop_recompute_balance t else t

/-- `AVLNode::get_and_delete_successor_helper`.  The function is only
ever called on an actual node; the `nil` case is unreachable and
returns a dummy interval. -/
def get_and_delete_successor_helper : AVLTree → AVLTree × Interval
  | AVLTree.nil => (AVLTree.nil, Interval.mk 0 0)
  | AVLTree.node _ iv AVLTree.nil r =>
      -- no left child: `node.height = -1; node.interval`
      (AVLTree.node (-1) iv AVLTree.nil r, iv)
  | AVLTree.node h iv (AVLTree.node hl ivl ll rl) r =>
      let s := get_and_delete_successor_helper (AVLTree.node hl ivl ll rl)
      (drop_recompute_balance (AVLTree.node h iv s.1 r), s.2)

/-- `AVLNode::get_and_delete_successor`: requires `self.right` to be
present (`expect`), and runs the helper on it. -/
def get_and_delete_successor : AVLTree → AVLTree × Interval
  | AVLTree.nil => (AVLTree.nil, Interval.mk 0 0)
  | AVLTree.node h iv l r =>
      let s := get_and_delete_successor_helper r
      (AVLTree.node h iv l s.1, s.2)

/-- `AVLNode::merge_down_helper`.  `mainLeft = true` models the getter
pair `(left, right)` used for the left pass of `merge_down`, and
`mainLeft = false` the pair `(right, left)` of the right pass.  The
result is the updated subtree, the updated accumulator interval, and
the returned `done_merging` flag.  The `nil` case models the `if let
Some(..)` guards at both call sites (the call is skipped, the
accumulator is unchanged and `done_merging` keeps its value `false`). -/
def merge_down_helper (mainLeft : Bool) : AVLTree → Interval → AVLTree × Interval × Bool
  | AVLTree.nil, acc => (AVLTree.nil, acc, false)
  | AVLTree.node h iv l r, acc =>
    if mainLeft then
      -- step 1: recurse into the main-side (left) child first
      let s1 := merge_down_helper mainLeft l acc
      let l1 := s1.1
      let acc1 := s1.2.1
      if s1.2.2 then
        -- done_merging: maybe_drop_children; recompute_height; balance_after_deletion
        (drop_recompute_balance (AVLTree.node h iv l1 r), acc1, true)
      else if acc1.can_merge_with iv then
        -- self.height = -1; interval.merge_inplace_unchecked(self.interval)
        let acc2 := acc1.merge_inplace_unchecked iv
        -- probe the other-side (right) child
        let s2 := merge_down_helper mainLeft r acc2
        let r2 := s2.1
        let acc3 := s2.2.1
        if s2.2.2 then
          -- done_merging became true: the fixup overwrites the -1 mark
          (drop_recompute_balance (AVLTree.node (-1) iv l1 r2), acc3, true)
        else
          (AVLTree.node (-1) iv l1 r2, acc3, false)
      else
        -- cannot merge: done_merging = true, then the fixup
        (drop_recompute_balance (AVLTree.node h iv l1 r), acc1, true)
    else
      -- mirror image: main side is the right child
      let s1 := merge_down_helper mainLeft r acc
      let r1 := s1.1
      let acc1 := s1.2.1
      if s1.2.2 then
        (drop_recompute_balance (AVLTree.node h iv l r1), acc1, true)
      else if acc1.can_merge_with iv then
        let acc2 := acc1.merge_inplace_unchecked iv
        let s2 := merge_down_helper mainLeft l acc2
        let l2 := s2.1
        let acc3 := s2.2.1
        if s2.2.2 then
          (drop_recompute_balance (AVLTree.node (-1) iv l2 r1), acc3, true)
        else
          (AVLTree.node (-1) iv l2 r1, acc3, false)
      else
        (drop_recompute_balance (AVLTree.node h iv l r1), acc1, true)

/-- `AVLNode::merge_down`: left pass, right pass (threading the
accumulator), write the accumulator back, then the fixup sequence. -/
def merge_down : AVLTree → AVLTree
  | AVLTree.nil => AVLTree.nil
  | AVLTree.node h iv l r =>
    let s1 := merge_down_helper true l iv
    let s2 := merge_down_helper false r s1.2.1
    drop_recompute_balance (AVLTree.node h s2.2.1 s1.1 s2.1)

/-- `AVLNode::insert`.  The `nil` case models the `None` branch of the
`match child` at the call site (`child.replace(with_value(..))`) and
the root-creation branch of the facade. -/
def nodeInsert : AVLTree → Interval → AVLTree
  | AVLTree.nil, niv => with_value niv
  | AVLTree.node h iv l r, niv =>
    if iv.can_merge_with niv then
      merge_down (AVLTree.node h (iv.merge_inplace_unchecked niv) l r)
    else
      let t1 :=
        if niv.is_left_of iv then
          AVLTree.node h iv (nodeInsert l niv) r
        else
          AVLTree.node h iv l (nodeInsert r niv)
      balance_after_insertion (recompute_height t1) niv

/-- `AVLNode::delete` (the `println!` debugging statements have no
effect on the state and are not modelled).  The `nil` case models the
`if let Some(..)` guards at every recursive call site. -/
def nodeDelete : AVLTree → Interval → AVLTree
  | AVLTree.nil, _ => AVLTree.nil
  | AVLTree.node h iv l r, i =>
    let t1 :=
      if i.contains_interval iv then
        -- case 1: this node must be deleted; first delete from the
        -- right child, then from the left child, then drop marked
        -- children and do the four-way match
        let r1 := nodeDelete r i
        let l1 := nodeDelete l i
        match maybe_drop_children (AVLTree.node h iv l1 r1) with
        | AVLTree.nil => AVLTree.nil
        | AVLTree.node _ iv2 AVLTree.nil AVLTree.nil =>
            -- (None, None): self.height = 0, mark for deletion by parent
            AVLTree.node 0 iv2 AVLTree.nil AVLTree.nil
        | AVLTree.node _ _ (AVLTree.node hl ivl ll rl) AVLTree.nil =>
            -- (Some, None): *self = *left
            AVLTree.node hl ivl ll rl
        | AVLTree.node _ _ AVLTree.nil (AVLTree.node hr ivr lr rr) =>
            -- (None, Some): *self = *right
            AVLTree.node hr ivr lr rr
        | AVLTree.node h2 iv2 (AVLTree.node hl ivl ll rl) (AVLTree.node hr ivr lr rr) =>
            -- (Some, Some): self.interval = self.get_and_delete_successor()
            let s := get_and_delete_successor
              (AVLTree.node h2 iv2 (AVLTree.node hl ivl ll rl) (AVLTree.node hr ivr lr rr))
            match s.1 with
            | AVLTree.node h3 _ l3 r3 => AVLTree.node h3 s.2 l3 r3
            | AVLTree.nil => AVLTree.nil
      else if i.overlaps_with iv then
        if iv.contains_interval i then
          -- case 3: split.  In the struct literal the `right` field
          -- takes `self.right` before the `height` field evaluates
          -- `self.right_child_height()`, which therefore reads 0.
          let left_interval := Interval.mk iv.start (i.start - 1)
          let right_interval := Interval.mk (i.stop + 1) iv.stop
          let new_node := AVLTree.node (0 + 1) right_interval AVLTree.nil r
          AVLTree.node h left_interval l (balance_after_deletion new_node)
        else if iv.contains_value i.start then
          -- case 2, right overlap: recurse into the right child,
          -- then shrink to [self.start, interval.start - 1]
          AVLTree.node h (Interval.mk iv.start (i.start - 1)) l (nodeDelete r i)
        else
          -- case 2, left overlap: recurse into the left child,
          -- then shrink to [interval.stop + 1, self.stop]
          AVLTree.node h (Interval.mk (i.stop + 1) iv.stop) (nodeDelete l i) r
      else if i.is_left_of iv then
        AVLTree.node h iv (nodeDelete l i) r
      else
        AVLTree.node h iv l (nodeDelete r i)
    after_delete t1

/-- `AVLNode::contains`.  The `nil` cases model the `map_or(false, ..)`
at both call sites. -/
def nodeContains : AVLTree → Interval → Bool
  | AVLTree.nil, _ => false
  | AVLTree.node _ iv l r, i =>
    if iv.contains_interval i then true
    else if i.is_left_of iv then nodeContains l i
    else nodeContains r i

/-- `AVLNode::tree_size`. -/
def tree_size : AVLTree → Int
  | AVLTree.nil => 0
  | AVLTree.node _ _ l r => tree_size l + tree_size r + 1

/-- `AVLNode::is_avl`: `(-1..=1).contains(&balance_score())`. -/
def node_is_avl (t : AVLTree) : Bool :=
  decide (-1 ≤ balance_score t) && decide (balance_score t ≤ 1)

/-- `AVLNode::tree_is_avl`.  The `nil` cases model `map_or(true, ..)`. -/
def tree_is_avl : AVLTree → Bool
  | AVLTree.nil => true
  | AVLTree.node h iv l r =>
      node_is_avl (AVLTree.node h iv l r) && tree_is_avl l && tree_is_avl r

end AVLTree

/-- `AVLIntervalTree<T>` from `src/avl_tree.rs`: an optional root node.
The `Option<AVLNode<T>>` root is represented by `AVLTree` directly
(`nil` for `None`). -/
structure AVLIntervalTree where
  root : AVLTree
deriving DecidableEq, Repr

/-- `AVLIntervalTree::empty` (from the `IntervalTree` trait impl). -/
def treeEmpty : AVLIntervalTree :=
  { root := AVLTree.nil }

/-- `AVLIntervalTree::is_empty`: `self.root.is_none()`. -/
def treeIsEmpty (t : AVLIntervalTree) : Bool :=
  match t.root with
  | AVLTree.nil => true
  | AVLTree.node _ _ _ _ => false

/-- `AVLIntervalTree::number_of_nodes`. -/
def treeNumberOfNodes (t : AVLIntervalTree) : Int :=
  match t.root with
  | AVLTree.nil => 0
  | AVLTree.node h iv l r => AVLTree.tree_size (AVLTree.node h iv l r)

/-- `AVLIntervalTree::insert`: create the root on first insert,
otherwise delegate to `AVLNode::insert`. -/
def treeInsert (t : AVLIntervalTree) (interval : Interval) : AVLIntervalTree :=
  match t.root with
  | AVLTree.nil => { root := AVLTree.with_value interval }
  | AVLTree.node h iv l r =>
      { root := AVLTree.nodeInsert (AVLTree.node h iv l r) interval }

/-- `AVLIntervalTree::delete`: delegate to `AVLNode::delete`, then
clear the root `if node.height < 0`. -/
def treeDelete (t : AVLIntervalTree) (interval : Interval) : AVLIntervalTree :=
  match t.root with
  | AVLTree.nil => t
  | AVLTree.node h iv l r =>
      let n := AVLTree.nodeDelete (AVLTree.node h iv l r) interval
      if AVLTree.cached_height n < 0 then { root := AVLTree.nil } else { root := n }

/-- `AVLIntervalTree::contains`. -/
def treeContains (t : AVLIntervalTree) (interval : Interval) : Bool :=
  match t.root with
  | AVLTree.nil => false
  | AVLTree.node h iv l r => AVLTree.nodeContains (AVLTree.node h iv l r) interval

/-- `AVLIntervalTree::is_avl`. -/
def treeIsAvl (t : AVLIntervalTree) : Bool :=
  match t.root with
  | AVLTree.nil => true
  | AVLTree.node h iv l r => AVLTree.tree_is_avl (AVLTree.node h iv l r)

/-- `IntervalTree::insert_value` (default method in `src/traits.rs`):
`insert(Interval::new(value, value))`. -/
def treeInsertValue (t : AVLIntervalTree) (value : Int) : AVLIntervalTree :=
  treeInsert t (Interval.mk value value)

/-- `IntervalTree::delete_value` (default method in `src/traits.rs`). -/
def treeDeleteValue (t : AVLIntervalTree) (value : Int) : AVLIntervalTree :=
  treeDelete t (Interval.mk value value)

/-- `IntervalTree::contains_value` (default method in `src/traits.rs`):
`contains(Interval::new(value, value))`. -/
def treeContainsValue (t : AVLIntervalTree) (value : Int) : Bool :=
  treeContains t (Interval.mk value value)

/-! ### Specification-side notions used to state the claims:
reference point-set semantics, recomputed heights, the structural
invariants, and in-order traversal.  These are stated from the spec,
not from the source, and are only used on the property side of the
theorems. -/

/-- In-order traversal: the list of intervals stored in a subtree. -/
def toList : AVLTree → List Interval
  | AVLTree.nil => []
  | AVLTree.node _ iv l r => toList l ++ [iv] ++ toList r

/-- The true (recomputed) height of a subtree: 0 for `nil`,
`1 + max(children)` for a node, ignoring the cached field. -/
def real_height : AVLTree → Int
  | AVLTree.nil => 0
  | AVLTree.node _ _ l r => max (real_height l) (real_height r) + 1

/-- Every cached height field equals `1 + max(height(left), height(right))`
with 0 for an absent child. -/
def heights_correct : AVLTree → Bool
  | AVLTree.nil => true
  | AVLTree.node h _ l r =>
      (h == max (real_height l) (real_height r) + 1)
        && heights_correct l && heights_correct r

/-- Every node is balanced with respect to the true heights:
`|height(left) - height(right)| <= 1`. -/
def real_balanced : AVLTree → Bool
  | AVLTree.nil => true
  | AVLTree.node _ _ l r =>
      decide (-1 ≤ real_height l - real_height r)
        && decide (real_height l - real_height r ≤ 1)
        && real_balanced l && real_balanced r

/-- The in-order interval list is strictly ascending with a gap of at
least one point between consecutive intervals (combined ordering and
disjointness/non-adjacency invariant of the spec, section 3). -/
def list_ok : List Interval → Bool
  | [] => true
  | [_] => true
  | a :: b :: rest => decide (a.stop + 1 < b.start) && list_ok (b :: rest)

/-- Some pair of stored intervals overlaps or is adjacent. -/
def has_mergeable_pair (l : List Interval) : Bool :=
  match l with
  | [] => false
  | a :: rest => rest.any (fun b => a.can_merge_with b) || has_mergeable_pair rest

/-- All structural invariants of spec section 3 at once: AVL balance,
cached-height correctness, ordering, and disjointness. -/
def invariants_ok (t : AVLTree) : Bool :=
  heights_correct t && real_balanced t && list_ok (toList t)

/-- A public mutating operation applied to the tree. -/
inductive Op where
  | ins (lo hi : Int)
  | del (lo hi : Int)
deriving DecidableEq, Repr

/-- Run a sequence of inserts and deletes on an initially empty tree. -/
def runTree (ops : List Op) : AVLIntervalTree :=
  ops.foldl
    (fun t op =>
      match op with
      | Op.ins lo hi => treeInsert t (Interval.mk lo hi)
      | Op.del lo hi => treeDelete t (Interval.mk lo hi))
    treeEmpty

/-- One step of the reference point-set model of spec section 8: an
insert adds every point of the interval, a delete removes every point. -/
def refStep (b : Bool) (op : Op) (v : Int) : Bool :=
  match op with
  | Op.ins lo hi => if decide (lo ≤ v) && decide (v ≤ hi) then true else b
  | Op.del lo hi => if decide (lo ≤ v) && decide (v ≤ hi) then false else b

/-- Membership of `v` in the reference set of covered integer points
after running the operation sequence. -/
def refContains (ops : List Op) (v : Int) : Bool :=
  ops.foldl (fun b op => refStep b op v) false

/-- Every interval argument of the sequence satisfies `start <= stop`. -/
def ops_wellformed (ops : List Op) : Bool :=
  ops.all (fun op => match op with
    | Op.ins lo hi => decide (lo ≤ hi)
    | Op.del lo hi => decide (lo ≤ hi))

namespace AVLTree

/-- The behaviour asserted by the spec sentence behind claim C6, as a
second definition to compare against `nodeDelete`: identical to
`nodeDelete` except that in the shrink case (case 2) the recursive
delete call descends into the child on the side *not* being trimmed
("recurse into the child on the other side"), instead of the side the
source actually recurses into. -/
def nodeDelete_claimC6 : AVLTree → Interval → AVLTree
  | AVLTree.nil, _ => AVLTree.nil
  | AVLTree.node h iv l r, i =>
    let t1 :=
      if i.contains_interval iv then
        let r1 := nodeDelete_claimC6 r i
        let l1 := nodeDelete_claimC6 l i
        match maybe_drop_children (AVLTree.node h iv l1 r1) with
        | AVLTree.nil => AVLTree.nil
        | AVLTree.node _ iv2 AVLTree.nil AVLTree.nil =>
            AVLTree.node 0 iv2 AVLTree.nil AVLTree.nil
        | AVLTree.node _ _ (AVLTree.node hl ivl ll rl) AVLTree.nil =>
            AVLTree.node hl ivl ll rl
        | AVLTree.node _ _ AVLTree.nil (AVLTree.node hr ivr lr rr) =>
            AVLTree.node hr ivr lr rr
        | AVLTree.node h2 iv2 (AVLTree.node hl ivl ll rl) (AVLTree.node hr ivr lr rr) =>
            let s := get_and_delete_successor
              (AVLTree.node h2 iv2 (AVLTree.node hl ivl ll rl) (AVLTree.node hr ivr lr rr))
            match s.1 with
            | AVLTree.node h3 _ l3 r3 => AVLTree.node h3 s.2 l3 r3
            | AVLTree.nil => AVLTree.nil
      else if i.overlaps_with iv then
        if iv.contains_interval i then
          let left_interval := Interval.mk iv.start (i.start - 1)
          let right_interval := Interval.mk (i.stop + 1) iv.stop
          let new_node := AVLTree.node (0 + 1) right_interval AVLTree.nil r
          AVLTree.node h left_interval l (balance_after_deletion new_node)
        else if iv.contains_value i.start then
          -- trimmed on the right: the claim asserts the recursion goes left
          AVLTree.node h (Interval.mk iv.start (i.start - 1)) (nodeDelete_claimC6 l i) r
        else
          -- trimmed on the left: the claim asserts the recursion goes right
          AVLTree.node h (Interval.mk (i.stop + 1) iv.stop) l (nodeDelete_claimC6 r i)
      else if i.is_left_of iv then
        AVLTree.node h iv (nodeDelete_claimC6 l i) r
      else
        AVLTree.node h iv l (nodeDelete_claimC6 r i)
    after_delete t1

end AVLTree

/-! ### Wrap-around model of `adjacent_to` for claim C10.

`Interval::adjacent_to` computes `self.stop + T::one()` on the element
type with no overflow guard.  For a fixed signed width `w` (as in the
repository's own tests, which use `i8`, so `w = 8`) release-mode Rust
wraps this addition modulo `2 ^ w`; the following definitions are the
source's adjacency predicates with that two's-complement wrap-around
addition made explicit. -/

/-- Two's-complement wrap-around of an integer to signed width `w`. -/
def wrapSigned (w : Nat) (x : Int) : Int :=
  (x + 2 ^ (w - 1)) % 2 ^ w - 2 ^ (w - 1)

/-- `Interval::left_adjacent_to` at signed width `w`:
`self.stop + 1` wraps. -/
def left_adjacent_to_wrap (w : Nat) (self other : Interval) : Bool :=
  wrapSigned w (self.stop + 1) == other.start

/-- `Interval::right_adjacent_to` at signed width `w`:
`other.stop + 1` wraps. -/
def right_adjacent_to_wrap (w : Nat) (self other : Interval) : Bool :=
  self.start == wrapSigned w (other.stop + 1)

/-- `Interval::adjacent_to` at signed width `w`. -/
def adjacent_to_wrap (w : Nat) (self other : Interval) : Bool :=
  left_adjacent_to_wrap w self other || right_adjacent_to_wrap w self other

/-- `Interval::can_merge_with` at signed width `w`. -/
def can_merge_with_wrap (w : Nat) (self other : Interval) : Bool :=
  self.overlaps_with other || adjacent_to_wrap w self other

/-! ### The claims -/

/-- C1: the claimed point-set equivalence fails on the code.  For the
operation sequence insert `[1,1]`; delete `[1,1]` (every interval with
`start <= stop`), the tree still reports the value 1 as contained,
while the reference set of covered integer points does not contain it:
the childless root marks itself with the sentinel height 0, which
neither `maybe_drop_children` nor the facade (both of which test
`height < 0`) ever removes. -/
theorem claim_C1_point_set_equivalence_fails :
    ops_wellformed [Op.ins 1 1, Op.del 1 1] = true
    ∧ treeContainsValue (runTree [Op.ins 1 1, Op.del 1 1]) 1 = true
    ∧ refContains [Op.ins 1 1, Op.del 1 1] 1 = false := by
  decide

/-- C2: the claimed removal of empty-marked nodes fails on the code.
Starting from the empty tree, insert `[1,1]` produces a tree holding
exactly the one interval `[1,1]`; deleting `[0,2]`, which contains
`[1,1]`, leaves a tree that is NOT empty and still contains the value
1, because the childless node marks itself with height 0 while every
pruning site tests `height < 0`. -/
theorem claim_C2_empty_marked_removal_fails :
    runTree [Op.ins 1 1] = { root := AVLTree.with_value (Interval.mk 1 1) }
    ∧ (Interval.mk 0 2).contains_interval (Interval.mk 1 1) = true
    ∧ treeIsEmpty (runTree [Op.ins 1 1, Op.del 0 2]) = false
    ∧ treeContainsValue (runTree [Op.ins 1 1, Op.del 0 2]) 1 = true := by
  decide

/-- C3: the claimed merge completeness fails on the code.  The first
four inserts build a tree satisfying all invariants (AVL balance,
correct cached heights, ordering, disjointness).  Inserting `[9,12]`
then merges at the root (growing it to `[9,20]`), but the cascade
checks the left chain deepest-first: the bottom node `[1,3]` cannot
merge and sets `done_merging`, which prevents the mergeable node
`[5,8]` above it from being absorbed.  The resulting tree stores the
adjacent intervals `[5,8]` and `[9,20]` in two nodes. -/
theorem claim_C3_merge_completeness_fails :
    invariants_ok (runTree [Op.ins 10 20, Op.ins 5 8, Op.ins 30 40, Op.ins 1 3]).root = true
    ∧ toList (runTree [Op.ins 10 20, Op.ins 5 8, Op.ins 30 40, Op.ins 1 3, Op.ins 9 12]).root
        = [Interval.mk 1 3, Interval.mk 5 8, Interval.mk 9 20, Interval.mk 30 40]
    ∧ (Interval.mk 5 8).can_merge_with (Interval.mk 9 20) = true
    ∧ has_mergeable_pair
        (toList (runTree [Op.ins 10 20, Op.ins 5 8, Op.ins 30 40, Op.ins 1 3, Op.ins 9 12]).root)
        = true := by
  decide

/-- C4: the balance and height-cache invariant fails on the code after
a public insert.  Inserting `[5,5]`, `[3,3]`, `[1,1]` triggers a
Left-Left `rotate_right`, which recomputes a dummy node's height
instead of the rotated-down child's; the child keeps its stale cached
height 3, the new root caches 4, the code's own `is_avl` checker
reports false, and the cached heights do not match the recomputed
ones. -/
theorem claim_C4_balance_invariant_fails :
    treeIsAvl (runTree [Op.ins 5 5, Op.ins 3 3, Op.ins 1 1]) = false
    ∧ heights_correct (runTree [Op.ins 5 5, Op.ins 3 3, Op.ins 1 1]).root = false
    ∧ (runTree [Op.ins 5 5, Op.ins 3 3, Op.ins 1 1]).root
        = AVLTree.node 4 (Interval.mk 3 3)
            (AVLTree.node 1 (Interval.mk 1 1) AVLTree.nil AVLTree.nil)
            (AVLTree.node 3 (Interval.mk 5 5) AVLTree.nil AVLTree.nil) := by
  decide

/-- C5: the claimed rotation mechanics fail on the code.  A left
rotation of the subtree `[10,10]([5,5], [20,20]([15,15],[30,30]))`
should make `[20,20]` the root with the old root as its LEFT child and
retain `[30,30]`; the source's `rotate_left` instead hangs the old
root on the RIGHT of `[20,20]`, leaves the promoted node with no left
child, and discards `[30,30]` (its `y.right.replace(temp)` drops `y`'s
former right subtree), and the height recomputation hits a dummy node.
Consequently inserting `[1,1]`, `[3,3]`, `[5,5]` (a Right-Right case)
silently loses the interval `[5,5]`. -/
theorem claim_C5_rotation_mechanics_fail :
    AVLTree.rotate_left
        (AVLTree.node 3 (Interval.mk 10 10)
          (AVLTree.node 1 (Interval.mk 5 5) AVLTree.nil AVLTree.nil)
          (AVLTree.node 2 (Interval.mk 20 20)
            (AVLTree.node 1 (Interval.mk 15 15) AVLTree.nil AVLTree.nil)
            (AVLTree.node 1 (Interval.mk 30 30) AVLTree.nil AVLTree.nil)))
      = AVLTree.node 4 (Interval.mk 20 20) AVLTree.nil
          (AVLTree.node 3 (Interval.mk 10 10)
            (AVLTree.node 1 (Interval.mk 5 5) AVLTree.nil AVLTree.nil)
            (AVLTree.node 1 (Interval.mk 15 15) AVLTree.nil AVLTree.nil))
    ∧ treeContainsValue (runTree [Op.ins 1 1, Op.ins 3 3, Op.ins 5 5]) 5 = false
    ∧ treeNumberOfNodes (runTree [Op.ins 1 1, Op.ins 3 3, Op.ins 5 5]) = 2 := by
  decide

/-- C6 counterexample: the claim as stated is false on the code.  For
the node `[10,20]` with children `[0,5]` and `[30,40]` and the deleted
interval `[15,35]` the shrink case applies (the intervals overlap and
neither contains the other): the node is trimmed on its right side,
and the claim says the recursion descends into the child on the side
NOT being trimmed (here the left child), which would leave the right
child `[30,40]` untouched and the value 31 still stored — as
`nodeDelete_claimC6`, the claim's reading, indeed does.  The code
instead descends into the right child and trims it to `[36,40]`, so 31
is no longer stored. -/
theorem claim_C6_counterexample :
    (Interval.mk 15 35).overlaps_with (Interval.mk 10 20) = true
    ∧ (Interval.mk 15 35).contains_interval (Interval.mk 10 20) = false
    ∧ (Interval.mk 10 20).contains_interval (Interval.mk 15 35) = false
    ∧ AVLTree.nodeContains
        (AVLTree.nodeDelete
          (AVLTree.node 2 (Interval.mk 10 20)
            (AVLTree.node 1 (Interval.mk 0 5) AVLTree.nil AVLTree.nil)
            (AVLTree.node 1 (Interval.mk 30 40) AVLTree.nil AVLTree.nil))
          (Interval.mk 15 35))
        (Interval.mk 31 31) = false
    ∧ AVLTree.nodeContains
        (AVLTree.nodeDelete_claimC6
          (AVLTree.node 2 (Interval.mk 10 20)
            (AVLTree.node 1 (Interval.mk 0 5) AVLTree.nil AVLTree.nil)
            (AVLTree.node 1 (Interval.mk 30 40) AVLTree.nil AVLTree.nil))
          (Interval.mk 15 35))
        (Interval.mk 31 31) = true := by
  decide

/-- C6 (amended): in the shrink case of deletion (the deleted interval
overlaps the node's interval and neither fully contains the other),
the node's interval shrinks on the side touched by the overlap and the
recursive delete call descends into the child on THAT SAME side (the
side the deleted interval extends toward), leaving the other child
untouched by the recursion; then the usual post-deletion fixup runs. -/
theorem claim_C6_shrink_recursion_same_side (h : Int) (iv : Interval)
    (l r : AVLTree) (i : Interval)
    (h1 : i.contains_interval iv = false)
    (h2 : i.overlaps_with iv = true)
    (h3 : iv.contains_interval i = false) :
    AVLTree.nodeDelete (AVLTree.node h iv l r) i =
      AVLTree.after_delete
        (if iv.contains_value i.start then
          AVLTree.node h (Interval.mk iv.start (i.start - 1)) l (AVLTree.nodeDelete r i)
        else
          AVLTree.node h (Interval.mk (i.stop + 1) iv.stop) (AVLTree.nodeDelete l i) r) := by
  rw [AVLTree.nodeDelete]
  simp only [h1, h2, h3, Bool.false_eq_true, if_false, if_true]

/-- Witness for the amended C6 at the counterexample's concrete input. -/
theorem claim_C6_shrink_recursion_same_side_witness :
    ((Interval.mk 15 35).contains_interval (Interval.mk 10 20) = false
      ∧ (Interval.mk 15 35).overlaps_with (Interval.mk 10 20) = true
      ∧ (Interval.mk 10 20).contains_interval (Interval.mk 15 35) = false)
    ∧ AVLTree.nodeDelete
        (AVLTree.node 2 (Interval.mk 10 20)
          (AVLTree.node 1 (Interval.mk 0 5) AVLTree.nil AVLTree.nil)
          (AVLTree.node 1 (Interval.mk 30 40) AVLTree.nil AVLTree.nil))
        (Interval.mk 15 35) =
      AVLTree.after_delete
        (if (Interval.mk 10 20).contains_value (Interval.mk 15 35).start then
          AVLTree.node 2 (Interval.mk (Interval.mk 10 20).start ((Interval.mk 15 35).start - 1))
            (AVLTree.node 1 (Interval.mk 0 5) AVLTree.nil AVLTree.nil)
            (AVLTree.nodeDelete
              (AVLTree.node 1 (Interval.mk 30 40) AVLTree.nil AVLTree.nil) (Interval.mk 15 35))
        else
          AVLTree.node 2 (Interval.mk ((Interval.mk 15 35).stop + 1) (Interval.mk 10 20).stop)
            (AVLTree.nodeDelete
              (AVLTree.node 1 (Interval.mk 0 5) AVLTree.nil AVLTree.nil) (Interval.mk 15 35))
            (AVLTree.node 1 (Interval.mk 30 40) AVLTree.nil AVLTree.nil)) :=
  ⟨⟨by decide, by decide, by decide⟩,
    claim_C6_shrink_recursion_same_side 2 (Interval.mk 10 20)
      (AVLTree.node 1 (Interval.mk 0 5) AVLTree.nil AVLTree.nil)
      (AVLTree.node 1 (Interval.mk 30 40) AVLTree.nil AVLTree.nil)
      (Interval.mk 15 35) (by decide) (by decide) (by decide)⟩

/-- C7: the claimed preservation of the rest of the subtree by
successor deletion fails on the code.  The inserts build the tree
`[10,10]([0,0], [20,20](nil,[30,30]))`; deleting `[10,10]` takes the
two-children branch, fetches the successor `[20,20]`, and
`get_and_delete_successor_helper` marks the successor node itself with
height `-1`, so the parent's `maybe_drop_children` discards the whole
marked subtree INCLUDING the successor's right child `[30,30]`, which
the claim says remains stored. -/
theorem claim_C7_successor_deletion_fails :
    toList (runTree [Op.ins 10 10, Op.ins 0 0, Op.ins 20 20, Op.ins 30 30]).root
      = [Interval.mk 0 0, Interval.mk 10 10, Interval.mk 20 20, Interval.mk 30 30]
    ∧ treeContainsValue
        (runTree [Op.ins 10 10, Op.ins 0 0, Op.ins 20 20, Op.ins 30 30, Op.del 10 10]) 30 = false
    ∧ toList
        (runTree [Op.ins 10 10, Op.ins 0 0, Op.ins 20 20, Op.ins 30 30, Op.del 10 10]).root
      = [Interval.mk 0 0, Interval.mk 20 20] := by
  decide

/-- C8: the merge error contract of `Interval::merge` and
`Interval::merge_inplace`.  The checked merge succeeds exactly when
the two intervals overlap or are adjacent; on success both produce the
union `[min(starts), max(stops)]`; on failure the error is
`MergeOnDisjointIntervals` and `merge_inplace` leaves the receiving
interval unchanged.  (In the embedding the public tree operations are
defined without the checked variants at all — every merge the tree
engine performs is `merge_inplace_unchecked` guarded by a preceding
`can_merge_with` test — so no tree operation can produce this error.) -/
theorem claim_C8_merge_error_contract : ∀ a b : Interval,
    ((a.merge b).isOk = (a.overlaps_with b || a.adjacent_to b))
    ∧ ((a.merge b).toOption
        = if a.can_merge_with b then
            some (Interval.mk (min a.start b.start) (max a.stop b.stop))
          else none)
    ∧ ((a.merge_inplace b).1
        = if a.can_merge_with b then
            Interval.mk (min a.start b.start) (max a.stop b.stop)
          else a)
    ∧ ((a.merge_inplace b).2
        = if a.can_merge_with b then none
          else some IntervalError.MergeOnDisjointIntervals) := by
  intro a b
  cases hcb : a.overlaps_with b || a.adjacent_to b <;>
    simp [Interval.merge, Interval.merge_inplace, Interval.can_merge_with, hcb,
      Interval.merge_unchecked, Interval.merge_inplace_unchecked,
      Except.isOk, Except.toBool, Except.toOption]

/-- C9: the concrete scenario of spec section 8 holds on the code:
insert `[5,17]` (contains 12, not 3, one node); insert `[18,25]`
(merged into the single node `[5,25]`); insert `[-3,1]` (disjoint, two
nodes); delete `[9,12]` (splits `[5,25]` into `[5,8]` and `[13,25]`,
three nodes, 12 gone, 5 still present). -/
theorem claim_C9_concrete_scenario :
    (treeContainsValue (runTree [Op.ins 5 17]) 12 = true
      ∧ treeContainsValue (runTree [Op.ins 5 17]) 3 = false
      ∧ treeNumberOfNodes (runTree [Op.ins 5 17]) = 1)
    ∧ ((runTree [Op.ins 5 17, Op.ins 18 25]).root
          = AVLTree.node 1 (Interval.mk 5 25) AVLTree.nil AVLTree.nil
      ∧ treeNumberOfNodes (runTree [Op.ins 5 17, Op.ins 18 25]) = 1)
    ∧ treeNumberOfNodes (runTree [Op.ins 5 17, Op.ins 18 25, Op.ins (-3) 1]) = 2
    ∧ (treeNumberOfNodes (runTree [Op.ins 5 17, Op.ins 18 25, Op.ins (-3) 1, Op.del 9 12]) = 3
      ∧ treeContainsValue (runTree [Op.ins 5 17, Op.ins 18 25, Op.ins (-3) 1, Op.del 9 12]) 12
          = false
      ∧ treeContainsValue (runTree [Op.ins 5 17, Op.ins 18 25, Op.ins (-3) 1, Op.del 9 12]) 5
          = true
      ∧ toList (runTree [Op.ins 5 17, Op.ins 18 25, Op.ins (-3) 1, Op.del 9 12]).root
          = [Interval.mk (-3) 1, Interval.mk 5 8, Interval.mk 13 25]) := by
  decide

/-- C10: under two's-complement wrap-around semantics of width `w ≥ 1`
for the unguarded `stop + 1` in `Interval::adjacent_to`, every
interval whose stop is the maximum representable value
`2 ^ (w-1) - 1` is reported adjacent (and hence mergeable) to any
interval whose start is the minimum representable value
`-2 ^ (w-1)`. -/
theorem claim_C10_adjacency_overflow (w : Nat) (hw : 1 ≤ w) (a b : Interval)
    (ha : a.stop = 2 ^ (w - 1) - 1)
    (hb : b.start = -(2 ^ (w - 1) : Int)) :
    left_adjacent_to_wrap w a b = true
    ∧ adjacent_to_wrap w a b = true
    ∧ can_merge_with_wrap w a b = true := by
  obtain ⟨k, rfl⟩ : ∃ k, w = k + 1 := ⟨w - 1, (Nat.succ_pred_eq_of_pos hw).symm⟩
  have hk : k + 1 - 1 = k := by omega
  rw [hk] at ha hb
  have hsum : ((2 : Int) ^ k - 1 + 1) + 2 ^ k = 2 ^ (k + 1) := by ring
  have hwrap : wrapSigned (k + 1) (a.stop + 1) = -(2 ^ k : Int) := by
    rw [wrapSigned, hk, ha, hsum, Int.emod_self, zero_sub]
  have hleft : left_adjacent_to_wrap (k + 1) a b = true := by
    rw [left_adjacent_to_wrap, hwrap, hb]
    exact beq_self_eq_true _
  refine ⟨hleft, ?_, ?_⟩
  · rw [adjacent_to_wrap, hleft, Bool.true_or]
  · rw [can_merge_with_wrap, adjacent_to_wrap, hleft, Bool.true_or, Bool.or_true]

/-- Witness for C10 at width 8 (the `i8` element type used by the
repository's own tests): `[0,127]` is reported adjacent to
`[-128,-120]`. -/
theorem claim_C10_adjacency_overflow_witness :
    (1 ≤ 8
      ∧ (Interval.mk 0 127).stop = 2 ^ (8 - 1) - 1
      ∧ (Interval.mk (-128) (-120)).start = -(2 ^ (8 - 1) : Int))
    ∧ (left_adjacent_to_wrap 8 (Interval.mk 0 127) (Interval.mk (-128) (-120)) = true
      ∧ adjacent_to_wrap 8 (Interval.mk 0 127) (Interval.mk (-128) (-120)) = true
      ∧ can_merge_with_wrap 8 (Interval.mk 0 127) (Interval.mk (-128) (-120)) = true) :=
  ⟨⟨by decide, by decide, by decide⟩,
    claim_C10_adjacency_overflow 8 (by decide) (Interval.mk 0 127) (Interval.mk (-128) (-120))
      (by decide) (by decide)⟩

end IntervalTrees
